import Mathlib

/-!
# Verification of the CSV ID converter (`main.py`)

A shallow embedding of the converter's core logic.  CSV files are modelled
at the level the program observes them after `pandas.read_csv`:

* a file either fails to parse (`none`) or yields a `Table` — a header list
  of column names plus a list of rows, each row a list of cells aligned with
  the header;
* a cell is `Option String`: `none` models a missing/NaN value (pandas turns
  empty fields into NaN, which `dropna` removes), `some v` a present value
  already in its string form (`astype(str)`; the program performs no other
  coercion and treats identifiers as opaque strings);
* Python `set` objects become `Finset String`; `sorted(list(s))` becomes
  `sortedIds`, which sorts lexicographically by code point exactly as
  Python's string comparison does;
* the file system seen by one run is a list of `DirFile`s (the `*.csv`
  entries of a directory: stem plus parse outcome); writing a file is
  recorded explicitly in the run state rather than performed as an effect.
-/

/-! ## Lexicographic string order (Python's `<=` on `str`)

Python compares strings lexicographically by code point.  We embed that
comparison as an executable Bool-valued function on the character lists and
prove it is a total preorder with antisymmetry, which is what sorting
needs. -/

/-- Lexicographic comparison of code-point sequences: the empty sequence is
least; otherwise compare the leading code points and fall through to the
tails on a tie. -/
def charListLe : List Char → List Char → Bool
  | [], _ => true
  | _ :: _, [] => false
  | a :: as, b :: bs =>
    if a.toNat < b.toNat then true
    else if b.toNat < a.toNat then false
    else charListLe as bs

/-- Python's `a <= b` on strings: lexicographic by code point. -/
def strle (a b : String) : Bool := charListLe a.data b.data

/-- The relation form of `strle`, for use with sortedness predicates. -/
def StrLe (a b : String) : Prop := strle a b = true

instance : DecidableRel StrLe := fun a b => by unfold StrLe; infer_instance

theorem charListLe_total (as bs : List Char) :
    charListLe as bs = true ∨ charListLe bs as = true := by
  induction as generalizing bs with
  | nil => exact Or.inl rfl
  | cons a as ih =>
    cases bs with
    | nil => exact Or.inr rfl
    | cons b bs =>
      simp only [charListLe]
      rcases Nat.lt_trichotomy a.toNat b.toNat with h | h | h
      · left; simp [h]
      · have h1 : ¬ a.toNat < b.toNat := by omega
        have h2 : ¬ b.toNat < a.toNat := by omega
        rcases ih bs with hc | hc <;> simp [h1, h2, hc]
      · right; simp [h]

theorem charListLe_trans {as bs cs : List Char}
    (h₁ : charListLe as bs = true) (h₂ : charListLe bs cs = true) :
    charListLe as cs = true := by
  induction as generalizing bs cs with
  | nil => rfl
  | cons a as ih =>
    cases bs with
    | nil => simp [charListLe] at h₁
    | cons b bs =>
      cases cs with
      | nil => simp [charListLe] at h₂
      | cons c cs =>
        simp only [charListLe] at h₁ h₂ ⊢
        rcases Nat.lt_trichotomy a.toNat b.toNat with hab | hab | hab
        · rcases Nat.lt_trichotomy b.toNat c.toNat with hbc | hbc | hbc
          · rw [if_pos (by omega)]
          · rw [if_pos (by omega)]
          · rw [if_neg (by omega), if_pos (by omega)] at h₂
            exact absurd h₂ (by simp)
        · rw [if_neg (by omega), if_neg (by omega)] at h₁
          rcases Nat.lt_trichotomy b.toNat c.toNat with hbc | hbc | hbc
          · rw [if_pos (by omega)]
          · rw [if_neg (by omega), if_neg (by omega)] at h₂
            rw [if_neg (by omega), if_neg (by omega)]
            exact ih h₁ h₂
          · rw [if_neg (by omega), if_pos (by omega)] at h₂
            exact absurd h₂ (by simp)
        · rw [if_neg (by omega), if_pos (by omega)] at h₁
          exact absurd h₁ (by simp)

theorem charListLe_antisymm {as bs : List Char}
    (h₁ : charListLe as bs = true) (h₂ : charListLe bs as = true) : as = bs := by
  induction as generalizing bs with
  | nil =>
    cases bs with
    | nil => rfl
    | cons b bs => simp [charListLe] at h₂
  | cons a as ih =>
    cases bs with
    | nil => simp [charListLe] at h₁
    | cons b bs =>
      simp only [charListLe] at h₁ h₂
      rcases Nat.lt_trichotomy a.toNat b.toNat with hab | hab | hab
      · rw [if_neg (by omega), if_pos (by omega)] at h₂
        exact absurd h₂ (by simp)
      · rw [if_neg (by omega), if_neg (by omega)] at h₁
        rw [if_neg (by omega), if_neg (by omega)] at h₂
        have hc : a = b := by
          apply Char.ext; apply UInt32.ext; exact hab
        rw [hc, ih h₁ h₂]
      · rw [if_neg (by omega), if_pos (by omega)] at h₁
        exact absurd h₁ (by simp)

instance : IsTotal String StrLe :=
  ⟨fun a b => charListLe_total a.data b.data⟩

instance : IsTrans String StrLe :=
  ⟨fun _ _ _ h₁ h₂ => charListLe_trans h₁ h₂⟩

instance : IsAntisymm String StrLe :=
  ⟨fun a b h₁ h₂ => by
    cases a; cases b
    exact congrArg String.mk (charListLe_antisymm h₁ h₂)⟩

/-- Python's `sorted(list(s))` for a set of strings: the elements of `s`
listed in ascending lexicographic order.  Defined by insertion sort on any
list representing the underlying multiset; sortedness plus antisymmetry
makes the result representative-independent. -/
def sortedIds (s : Finset String) : List String :=
  Quot.liftOn s.val (fun l => l.insertionSort StrLe) fun a b h =>
    List.eq_of_perm_of_sorted
      ((List.perm_insertionSort _ a).trans (h.trans (List.perm_insertionSort _ b).symm))
      (List.sorted_insertionSort _ a) (List.sorted_insertionSort _ b)

theorem sortedIds_sorted (s : Finset String) : List.Sorted StrLe (sortedIds s) := by
  rcases s with ⟨m, hn⟩
  induction m using Quot.inductionOn with
  | _ l => exact List.sorted_insertionSort _ l

theorem sortedIds_coe (s : Finset String) : (↑(sortedIds s) : Multiset String) = s.val := by
  rcases s with ⟨m, hn⟩
  induction m using Quot.inductionOn with
  | _ l => exact Quot.sound (List.perm_insertionSort _ l)

theorem mem_sortedIds {s : Finset String} {a : String} : a ∈ sortedIds s ↔ a ∈ s := by
  have h := sortedIds_coe s
  constructor
  · intro hm
    have : a ∈ (↑(sortedIds s) : Multiset String) := by exact_mod_cast hm
    rw [h] at this
    exact this
  · intro hm
    have : a ∈ (↑(sortedIds s) : Multiset String) := by rw [h]; exact hm
    exact_mod_cast this

theorem sortedIds_nodup (s : Finset String) : (sortedIds s).Nodup := by
  have h := sortedIds_coe s
  have := s.nodup
  rw [← h] at this
  exact_mod_cast this

theorem sortedIds_toFinset (s : Finset String) : (sortedIds s).toFinset = s := by
  ext a
  simp [mem_sortedIds]

/-! ## The program's data model -/

/-- A parsed CSV table: the header row (column names, in order) and the data
rows.  Each row's cells are positionally aligned with `columns`. -/
structure Table where
  columns : List String
  cells : List (List (Option String))
deriving DecidableEq, Repr

/-- Python's `str.endswith`: is `t` a suffix of `s`, comparing the underlying
character sequences? -/
def endswith (s t : String) : Bool := decide (t.data <:+ s.data)

/-- Column access `df[c]` followed by positional reading of every row: the
column's values, `none` where the cell is absent or NaN.  A name not present
in the header yields no values (the program always guards the lookup). -/
def Table.colValues (t : Table) (c : String) : List (Option String) :=
  match t.columns.findIdx? (· = c) with
  | none => []
  | some i => t.cells.map fun row => (row.get? i).join

/-- Embeds `set(df[c].dropna().astype(str))`: the distinct present values of column
`c`, as a finite set of strings. -/
def extractIds (t : Table) (c : String) : Finset String :=
  ((t.colValues c).filterMap id).toFinset

/-- The single-column CSV file the converter writes with
`output_df.to_csv(output_file, index=False)`: a header row and one data row
per identifier. -/
structure OutputCSV where
  header : List String
  rows : List String
deriving DecidableEq, Repr

/-- The per-file errors `convert_csv_with_merge` catches and reports before
returning its `None` sentinel. -/
inductive ErrorReport where
  /-- the `except FileNotFoundError` branch or the generic `except Exception` around
  `pd.read_csv`: the input could not be read or parsed. -/
  | readError (path : String)
  /-- the `ValueError` raised when `"ID Subjektu" not in df.columns`; it
  carries the offending path and the columns actually present, which the
  Python message interpolates. -/
  | schemaError (path : String) (columns : List String)
deriving DecidableEq, Repr

/-- Result of one `convert_csv_with_merge` call: either the output path that
is returned together with the file written at it, or the reported error
(the Python function prints the report and returns `None`). -/
inductive ConvResult where
  | ok (outputFile : String) (written : OutputCSV)
  | fail (report : ErrorReport)
deriving DecidableEq, Repr

/-- The files a `ConvResult` caused to be written: exactly one on success
(`to_csv` is only reached after all checks pass), none on failure. -/
def filesWritten : ConvResult → List (String × OutputCSV)
  | .ok o w => [(o, w)]
  | .fail _ => []

/-- Embeds `convert_csv_with_merge(input_file, output_file, merge_ids)`.
`contents` is the outcome of `pd.read_csv(input_file)`; `merge_ids` is the
optional merge pool (`None` when omitted).  Mirrors the source: parse, check
for the `"ID Subjektu"` column (raising otherwise), extract the distinct
non-missing values, union in the pool when it is truthy (non-`None` and
non-empty), sort, and write the single-column `"ID"` frame. -/
def convert_csv_with_merge (input_file : String) (contents : Option Table)
    (output_file : String) (merge_ids : Option (Finset String)) : ConvResult :=
  match contents with
  | none => .fail (.readError input_file)
  | some df =>
    if "ID Subjektu" ∈ df.columns then
      let input_ids := extractIds df "ID Subjektu"
      let merged :=
        match merge_ids with
        | none => input_ids
        | some m => if m = ∅ then input_ids else input_ids ∪ m
      .ok output_file ⟨["ID"], sortedIds merged⟩
    else .fail (.schemaError input_file df.columns)

/-- One `*.csv` entry of a directory: the file's stem (base name without the
`.csv` extension) and what `pd.read_csv` makes of it (`none`: parsing
raises). -/
structure DirFile where
  stem : String
  contents : Option Table
deriving DecidableEq, Repr

/-- The file's name within its directory. -/
def DirFile.name (f : DirFile) : String := f.stem ++ ".csv"

/-- The default output path `f"{stem}_converted{suffix}"` computed by the
batch driver for an input file. -/
def DirFile.outFile (f : DirFile) : String := f.stem ++ "_converted.csv"

/-- Embeds `is_already_converted(file_path)`: `True` if the stem ends with
`"_converted"`; otherwise reparse the file — on a parse exception return
`False`; header exactly `["ID"]` → `True`; header containing
`"ID Subjektu"` → `False`; anything else → `True`. -/
def is_already_converted (f : DirFile) : Bool :=
  if endswith f.stem "_converted" then true
  else
    match f.contents with
    | none => false
    | some df =>
      if df.columns = ["ID"] then true
      else if "ID Subjektu" ∈ df.columns then false
      else true

/-- The mutable counters and write effects of one batch run: the two
counters printed in the summary and the output files created so far, in
creation order, keyed by the stem of the input file they came from (the
file written for key `s` is `s ++ "_converted.csv"`). -/
structure RunState where
  converted : Nat
  skipped : Nat
  created : List (String × OutputCSV)
deriving DecidableEq, Repr

/-- Names of the files the run has created so far. -/
def createdNames (st : RunState) : List String :=
  st.created.map fun e => e.1 ++ "_converted.csv"

/-- One iteration of the driver's `for csv_file in csv_files` loop:
skip (counting it) when `is_already_converted` or when a file already exists
at the default output path — `existing` holds the directory's file names at
the start of the run, and files created earlier in the same run also exist —
otherwise call the converter, counting a success and recording the written
file, and counting a reported failure under neither counter. -/
def processFile (merge_ids : Finset String) (existing : List String)
    (st : RunState) (f : DirFile) : RunState :=
  if is_already_converted f then
    { st with skipped := st.skipped + 1 }
  else
    if f.outFile ∈ existing ∨ f.outFile ∈ createdNames st then
      { st with skipped := st.skipped + 1 }
    else
      match convert_csv_with_merge f.name f.contents f.outFile (some merge_ids) with
      | .ok _ w =>
        { st with converted := st.converted + 1, created := st.created ++ [(f.stem, w)] }
      | .fail _ => st

/-- The driver's whole loop over the globbed input files, with the exists
check seeing the directory's initial contents plus this run's outputs. -/
def runBatch (merge_ids : Finset String) (dir : List DirFile) : RunState :=
  dir.foldl (processFile merge_ids (dir.map DirFile.name)) ⟨0, 0, []⟩

/-- The result of `pd.read_csv` applied to an output file the run wrote: header `["ID"]`,
one single-cell row per identifier. -/
def outputTable (w : OutputCSV) : Table :=
  ⟨w.header, w.rows.map fun r => [some r]⟩

/-- A file created by a run, as the next run's directory listing sees it:
stem `<input-stem>_converted`, contents the written single-column table. -/
def outputAsDirFile (e : String × OutputCSV) : DirFile :=
  ⟨e.1 ++ "_converted", some (outputTable e.2)⟩

example : extractIds ⟨["A", "ID Subjektu"], [[some "x", some "1"], [some "y", none], [some "z", some "1"]]⟩ "ID Subjektu" = {"1"} := by decide

example : convert_csv_with_merge "in.csv" (some ⟨["ID Subjektu"], [[some "10"], [some "2"]]⟩) "o.csv" none = .ok "o.csv" ⟨["ID"], ["10", "2"]⟩ := by decide

example : endswith "a_converted" "_converted" = true := by decide

example : runBatch {"M1"} [⟨"a", some ⟨["ID Subjektu"], [[some "T2"], [some "T1"]]⟩⟩] =
    ⟨1, 0, [("a", ⟨["ID"], ["M1", "T1", "T2"]⟩)]⟩ := by decide

/-- The per-file console lines `get_merge_ids` emits inside its loop: a
count for a usable file, the no-ID-column warning, or the caught-exception
error line. -/
inductive MergeReport where
  | counted (name : String) (n : Nat)
  | noIdColumn (name : String)
  | readError (name : String)
deriving DecidableEq, Repr

/-- One iteration of the `for csv_file in csv_files` loop of
`get_merge_ids`: on a parse exception report and continue; otherwise pick
the identifier column by checking `"ID"` first, then `"ID Subjektu"`, union
its distinct present values into the pool, or warn when neither column
exists. -/
def mergeStep (acc : Finset String × List MergeReport) (f : DirFile) :
    Finset String × List MergeReport :=
  match f.contents with
  | none => (acc.1, acc.2 ++ [.readError f.name])
  | some df =>
    if "ID" ∈ df.columns then
      (acc.1 ∪ extractIds df "ID", acc.2 ++ [.counted f.name (extractIds df "ID").card])
    else if "ID Subjektu" ∈ df.columns then
      (acc.1 ∪ extractIds df "ID Subjektu",
       acc.2 ++ [.counted f.name (extractIds df "ID Subjektu").card])
    else (acc.1, acc.2 ++ [.noIdColumn f.name])

/-- Embeds `get_merge_ids()`: an empty pool when the merge folder does not exist
(or holds no CSV files — then the loop body never runs); otherwise the fold
of `mergeStep` over the folder's CSV files.  Returns the pool together with
the per-file report lines. -/
def get_merge_ids (mergeDirExists : Bool) (files : List DirFile) :
    Finset String × List MergeReport :=
  if mergeDirExists then files.foldl mergeStep (∅, []) else (∅, [])

/-- The file system as one run of `main()` sees it. -/
structure FS where
  inputDirExists : Bool
  inputFiles : List DirFile
  mergeDirExists : Bool
  mergeFiles : List DirFile
deriving DecidableEq, Repr

/-- How a call of `main()` returns: the early `return` for a missing input
folder, the early `return` for an input folder with no CSV files, or the
completed batch loop.  Every branch is a plain `return None`. -/
inductive RunOutcome where
  | noInputDir
  | noCsvFiles
  | completed (result : RunState)
deriving DecidableEq, Repr

/-- Embeds `main()`: check the input folder, build the merge pool, glob the input
CSV files, and run the conversion loop. -/
def script_main (fs : FS) : RunOutcome :=
  if !fs.inputDirExists then .noInputDir
  else
    let merge_ids := (get_merge_ids fs.mergeDirExists fs.mergeFiles).1
    if fs.inputFiles = [] then .noCsvFiles
    else .completed (runBatch merge_ids fs.inputFiles)

/-- The process exit status of `python3 main.py`: `main()` ends every branch
with a plain `return` (returning `None`) and the `__main__` guard calls it
without `sys.exit`, so the interpreter always exits with status 0. -/
def script_exit_code (_ : FS) : Nat := 0

/-- The output files a `main()` call created. -/
def outcomeCreated : RunOutcome → List (String × OutputCSV)
  | .completed r => r.created
  | _ => []

/-- The number of files a `main()` call converted. -/
def outcomeConverted : RunOutcome → Nat
  | .completed r => r.converted
  | _ => 0

/-- The driver's loop with the merge pool threaded through every iteration
as explicit state.  The Python loop hands the one pool object to each
converter call; the converter only reads it (its sole set mutation,
`input_ids.update(merge_ids)`, targets the local set built from the input
column), so each iteration hands the pool on unchanged. -/
def runBatchTracked (merge_ids : Finset String) (dir : List DirFile) :
    RunState × Finset String :=
  dir.foldl (fun acc f => (processFile acc.2 (dir.map DirFile.name) acc.1 f, acc.2))
    (⟨0, 0, []⟩, merge_ids)

/-! ## Helper lemmas -/

theorem sortedIds_empty : sortedIds ∅ = [] := rfl

theorem endswith_append (s t : String) : endswith (s ++ t) t = true := by
  unfold endswith
  rw [decide_eq_true_eq, String.data_append]
  exact List.suffix_append s.data t.data

/-- A present value of a column is a cell of some row of the table. -/
theorem colValues_some_mem {t : Table} {c : String} {v : String}
    (h : some v ∈ t.colValues c) : ∃ row ∈ t.cells, some v ∈ row := by
  unfold Table.colValues at h
  cases hfind : t.columns.findIdx? (· = c) with
  | none => rw [hfind] at h; cases h
  | some i =>
    rw [hfind] at h
    rw [List.mem_map] at h
    obtain ⟨row, hrow, hv⟩ := h
    refine ⟨row, hrow, ?_⟩
    exact List.get?_mem (Option.join_eq_some.mp hv)

/-- When no cell of the table is the empty string, no extracted identifier
is either. -/
theorem extractIds_no_empty {t : Table} {c : String}
    (hwf : ∀ row ∈ t.cells, ∀ v ∈ row, v ≠ some "") : "" ∉ extractIds t c := by
  intro hmem
  unfold extractIds at hmem
  rw [List.mem_toFinset, List.mem_filterMap] at hmem
  obtain ⟨v, hv, hid⟩ := hmem
  have hv' : v = some "" := hid
  rw [hv'] at hv
  obtain ⟨row, hrow, hcell⟩ := colValues_some_mem hv
  exact hwf row hrow _ hcell rfl

/-- On a parseable input with the identifier column, the converter succeeds
and writes the sorted union of the input identifiers and the pool (an
absent or empty pool contributes nothing). -/
theorem convert_ok_eq (p o : String) (t : Table) (mids : Option (Finset String))
    (hcol : "ID Subjektu" ∈ t.columns) :
    convert_csv_with_merge p (some t) o mids =
      .ok o ⟨["ID"], sortedIds (extractIds t "ID Subjektu" ∪ mids.getD ∅)⟩ := by
  show (if "ID Subjektu" ∈ t.columns then _ else _) = _
  rw [if_pos hcol]
  cases mids with
  | none => simp
  | some m =>
    by_cases hm : m = ∅
    · subst hm; simp
    · simp [hm]

/-- The rows a conversion produced, when it succeeded. -/
def convertedRows : ConvResult → Option (List String)
  | .ok _ w => some w.rows
  | .fail _ => none

/-- The pool a merge file contributes: its chosen identifier column's
distinct present values, or nothing on a parse failure or a missing
identifier column. -/
def mergeContrib (f : DirFile) : Finset String :=
  match f.contents with
  | none => ∅
  | some df =>
    if "ID" ∈ df.columns then extractIds df "ID"
    else if "ID Subjektu" ∈ df.columns then extractIds df "ID Subjektu"
    else ∅

/-- The report line a merge file produces. -/
def mergeReportOf (f : DirFile) : MergeReport :=
  match f.contents with
  | none => .readError f.name
  | some df =>
    if "ID" ∈ df.columns then .counted f.name (extractIds df "ID").card
    else if "ID Subjektu" ∈ df.columns then .counted f.name (extractIds df "ID Subjektu").card
    else .noIdColumn f.name

theorem mergeStep_eq (acc : Finset String × List MergeReport) (f : DirFile) :
    mergeStep acc f = (acc.1 ∪ mergeContrib f, acc.2 ++ [mergeReportOf f]) := by
  unfold mergeStep mergeContrib mergeReportOf
  cases f.contents with
  | none => simp
  | some df =>
    by_cases h1 : "ID" ∈ df.columns
    · simp [h1]
    · by_cases h2 : "ID Subjektu" ∈ df.columns <;> simp [h1, h2]

theorem foldl_mergeStep (l : List DirFile) (acc : Finset String × List MergeReport) :
    l.foldl mergeStep acc =
      (l.foldl (fun s f => s ∪ mergeContrib f) acc.1, acc.2 ++ l.map mergeReportOf) := by
  induction l generalizing acc with
  | nil => simp
  | cons f l ih =>
    rw [List.foldl_cons, List.foldl_cons, ih, mergeStep_eq]
    simp

/-! ## Claims -/

/-- C1: for a convertible input (identifier column present) with identifier
set `A` and merge pool `B`, the converter returns success writing a file
whose only column is `"ID"` and whose rows are exactly `A ∪ B`, without
duplicates and without empty entries (table cells are never the empty
string — pandas parses empty fields as NaN — and the pool, built from such
tables, has no empty entry either). -/
theorem converter_output_is_union (input_file output_file : String) (t : Table)
    (merge_ids : Option (Finset String))
    (hcol : "ID Subjektu" ∈ t.columns)
    (hwf : ∀ row ∈ t.cells, ∀ v ∈ row, v ≠ some "")
    (hpool : "" ∉ merge_ids.getD ∅) :
    convert_csv_with_merge input_file (some t) output_file merge_ids =
      .ok output_file ⟨["ID"], sortedIds (extractIds t "ID Subjektu" ∪ merge_ids.getD ∅)⟩ ∧
    (sortedIds (extractIds t "ID Subjektu" ∪ merge_ids.getD ∅)).toFinset =
      extractIds t "ID Subjektu" ∪ merge_ids.getD ∅ ∧
    (sortedIds (extractIds t "ID Subjektu" ∪ merge_ids.getD ∅)).Nodup ∧
    "" ∉ sortedIds (extractIds t "ID Subjektu" ∪ merge_ids.getD ∅) := by
  refine ⟨convert_ok_eq _ _ _ _ hcol, sortedIds_toFinset _, sortedIds_nodup _, ?_⟩
  rw [mem_sortedIds, Finset.mem_union]
  rintro (h | h)
  · exact extractIds_no_empty hwf h
  · exact hpool h

theorem converter_output_is_union_witness :
    convert_csv_with_merge "f.csv"
        (some ⟨["Name", "ID Subjektu"], [[some "n", some "B"], [some "m", none]]⟩)
        "f_converted.csv" (some {"A"}) =
      .ok "f_converted.csv" ⟨["ID"], ["A", "B"]⟩ := by
  have h := converter_output_is_union "f.csv" "f_converted.csv"
    ⟨["Name", "ID Subjektu"], [[some "n", some "B"], [some "m", none]]⟩
    (some {"A"}) (by decide) (by decide) (by decide)
  exact h.1.trans (by decide)

/-- C2: the output rows depend only on the extracted identifier set and the
pool — two inputs with the same identifier set produce identical rows — the
rows are sorted ascending in the lexicographic (code-point) string order,
the pool itself is independent of merge-file enumeration order, and the
ordering is lexicographic rather than numeric: `"10"` sorts before `"2"`. -/
theorem converter_deterministic_lexicographic (p₁ p₂ o₁ o₂ : String) (t₁ t₂ : Table)
    (merge_ids : Option (Finset String))
    (h₁ : "ID Subjektu" ∈ t₁.columns) (h₂ : "ID Subjektu" ∈ t₂.columns)
    (hids : extractIds t₁ "ID Subjektu" = extractIds t₂ "ID Subjektu") :
    convertedRows (convert_csv_with_merge p₁ (some t₁) o₁ merge_ids) =
      convertedRows (convert_csv_with_merge p₂ (some t₂) o₂ merge_ids) ∧
    List.Sorted StrLe
      ((convertedRows (convert_csv_with_merge p₁ (some t₁) o₁ merge_ids)).getD []) ∧
    (∀ l₁ l₂ : List DirFile, l₁.Perm l₂ →
      (get_merge_ids true l₁).1 = (get_merge_ids true l₂).1) ∧
    convert_csv_with_merge "n.csv" (some ⟨["ID Subjektu"], [[some "10"], [some "2"]]⟩)
        "n_converted.csv" none = .ok "n_converted.csv" ⟨["ID"], ["10", "2"]⟩ := by
  rw [convert_ok_eq _ _ _ _ h₁, convert_ok_eq _ _ _ _ h₂, hids]
  refine ⟨rfl, ?_, ?_, by decide⟩
  · simpa [convertedRows] using sortedIds_sorted
      (extractIds t₂ "ID Subjektu" ∪ merge_ids.getD ∅)
  · intro l₁ l₂ hperm
    haveI : RightCommutative (fun (s : Finset String) f => s ∪ mergeContrib f) :=
      ⟨fun b a₁ a₂ => Finset.union_right_comm b (mergeContrib a₁) (mergeContrib a₂)⟩
    simp only [get_merge_ids, if_pos, foldl_mergeStep]
    exact hperm.foldl_eq ∅

theorem converter_deterministic_lexicographic_witness :
    convertedRows (convert_csv_with_merge "x.csv"
        (some ⟨["ID Subjektu"], [[some "b"], [some "a"]]⟩) "x_converted.csv" (some {"c"})) =
      convertedRows (convert_csv_with_merge "y.csv"
        (some ⟨["ID Subjektu"], [[some "a"], [some "b"], [some "a"]]⟩) "y_converted.csv"
        (some {"c"})) :=
  (converter_deterministic_lexicographic "x.csv" "y.csv" "x_converted.csv" "y_converted.csv"
    ⟨["ID Subjektu"], [[some "b"], [some "a"]]⟩
    ⟨["ID Subjektu"], [[some "a"], [some "b"], [some "a"]]⟩
    (some {"c"}) (by decide) (by decide) (by decide)).1

/-- C3: the classifier marks a file whose stem ends in `"_converted"` as
already converted regardless of content; a parseable file with header
exactly `["ID"]` as already converted; a parseable file (stem without the
marker) whose header contains `"ID Subjektu"` as convertible (not already
converted); and a parseable multi-column file without `"ID Subjektu"` as
to-skip — and the driver skips (counting) every file the classifier marks. -/
theorem classifier_rules (f : DirFile) :
    (endswith f.stem "_converted" = true → is_already_converted f = true) ∧
    (∀ df, f.contents = some df → df.columns = ["ID"] → is_already_converted f = true) ∧
    (endswith f.stem "_converted" = false → ∀ df, f.contents = some df →
      "ID Subjektu" ∈ df.columns → is_already_converted f = false) ∧
    (∀ df, f.contents = some df → 2 ≤ df.columns.length → "ID Subjektu" ∉ df.columns →
      is_already_converted f = true) ∧
    (∀ m ex st, is_already_converted f = true →
      processFile m ex st f = { st with skipped := st.skipped + 1 }) := by
  refine ⟨?_, ?_, ?_, ?_, ?_⟩
  · intro h; simp [is_already_converted, h]
  · intro df hdf hcols
    by_cases hs : endswith f.stem "_converted" <;>
      simp [is_already_converted, hs, hdf, hcols]
  · intro hs df hdf hmem
    have hne : df.columns ≠ ["ID"] := by
      intro e; rw [e] at hmem; simp at hmem
    simp [is_already_converted, hs, hdf, hne, hmem]
  · intro df hdf hlen hnot
    have hne : df.columns ≠ ["ID"] := by
      intro e; rw [e] at hlen; simp at hlen
    by_cases hs : endswith f.stem "_converted" <;>
      simp [is_already_converted, hs, hdf, hne, hnot]
  · intro m ex st h
    simp [processFile, h]

theorem classifier_rules_witness :
    is_already_converted ⟨"report_converted", some ⟨["Name", "Date"], []⟩⟩ = true ∧
    is_already_converted ⟨"plain", some ⟨["Name", "ID Subjektu"], []⟩⟩ = false := by
  constructor
  · exact (classifier_rules ⟨"report_converted", some ⟨["Name", "Date"], []⟩⟩).1 (by decide)
  · exact (classifier_rules ⟨"plain", some ⟨["Name", "ID Subjektu"], []⟩⟩).2.2.1 (by decide)
      ⟨["Name", "ID Subjektu"], []⟩ rfl (by decide)

/-- C5: on a parseable input whose header lacks `"ID Subjektu"`, the
converter returns the reported schema error — carrying the offending path
and the columns actually present — as its sentinel failure (no exception
escapes), and writes no file. -/
theorem missing_column_fails (input_file output_file : String) (t : Table)
    (merge_ids : Option (Finset String)) (h : "ID Subjektu" ∉ t.columns) :
    convert_csv_with_merge input_file (some t) output_file merge_ids =
      .fail (.schemaError input_file t.columns) ∧
    filesWritten (convert_csv_with_merge input_file (some t) output_file merge_ids) = [] := by
  have he : convert_csv_with_merge input_file (some t) output_file merge_ids =
      .fail (.schemaError input_file t.columns) := by
    show (if "ID Subjektu" ∈ t.columns then _ else _) = _
    rw [if_neg h]
  exact ⟨he, by rw [he]; rfl⟩

theorem missing_column_fails_witness :
    convert_csv_with_merge "bad.csv" (some ⟨["Name", "Date"], [[some "x", some "y"]]⟩)
        "bad_converted.csv" none =
      .fail (.schemaError "bad.csv" ["Name", "Date"]) :=
  (missing_column_fails "bad.csv" "bad_converted.csv"
    ⟨["Name", "Date"], [[some "x", some "y"]]⟩ none (by decide)).1

/-- C10: an input whose `"ID Subjektu"` column exists but holds only
missing values, converted with an absent or empty pool, succeeds and writes
the header-only output (single `"ID"` header, zero rows). -/
theorem empty_ids_empty_pool_ok (p o : String) (t : Table)
    (merge_ids : Option (Finset String))
    (hcol : "ID Subjektu" ∈ t.columns)
    (hempty : ∀ v ∈ t.colValues "ID Subjektu", v = none)
    (hm : merge_ids = none ∨ merge_ids = some ∅) :
    convert_csv_with_merge p (some t) o merge_ids = .ok o ⟨["ID"], []⟩ := by
  rw [convert_ok_eq _ _ _ _ hcol]
  have hA : extractIds t "ID Subjektu" = ∅ := by
    unfold extractIds
    rw [List.filterMap_eq_nil_iff.mpr (by intro a ha; simpa using hempty a ha)]
    rfl
  have hB : merge_ids.getD ∅ = ∅ := by rcases hm with h | h <;> subst h <;> rfl
  rw [hA, hB, Finset.union_empty, sortedIds_empty]

theorem empty_ids_empty_pool_ok_witness :
    convert_csv_with_merge "e.csv" (some ⟨["ID Subjektu", "X"], [[none, some "q"]]⟩)
        "e_converted.csv" none = .ok "e_converted.csv" ⟨["ID"], []⟩ :=
  empty_ids_empty_pool_ok "e.csv" "e_converted.csv"
    ⟨["ID Subjektu", "X"], [[none, some "q"]]⟩ none (by decide) (by decide) (Or.inl rfl)

/-- C6 counterexample: a file whose stem lacks the `"_converted"` marker and
whose header fails to parse is classified `False` (not already converted),
so the driver does **not** skip it: the skip counter stays at 0 and a
conversion is attempted (it fails, leaving the state unchanged), contrary to
the claimed Ineligible-skip behaviour. -/
theorem parse_failure_not_skipped_cex :
    is_already_converted ⟨"data", none⟩ = false ∧
    (processFile ∅ ["data.csv"] ⟨0, 0, []⟩ ⟨"data", none⟩).skipped = 0 ∧
    processFile ∅ ["data.csv"] ⟨0, 0, []⟩ ⟨"data", none⟩ = ⟨0, 0, []⟩ := by decide

/-- C6 amended: a candidate file without the `"_converted"` marker whose
header fails to parse is classified *not already converted*; the driver then
attempts conversion (given no file exists at the default output path), the
converter fails with a reported per-file error, and the file is counted
under neither counter with nothing written. -/
theorem parse_failure_attempted_not_counted (f : DirFile) (m : Finset String)
    (ex : List String) (st : RunState)
    (hsuf : endswith f.stem "_converted" = false) (hc : f.contents = none)
    (hex : f.outFile ∉ ex) (hcr : f.outFile ∉ createdNames st) :
    is_already_converted f = false ∧
    convert_csv_with_merge f.name f.contents f.outFile (some m) =
      .fail (.readError f.name) ∧
    processFile m ex st f = st := by
  have hia : is_already_converted f = false := by
    simp [is_already_converted, hsuf, hc]
  have hcv : convert_csv_with_merge f.name f.contents f.outFile (some m) =
      .fail (.readError f.name) := by rw [hc]; rfl
  refine ⟨hia, hcv, ?_⟩
  simp [processFile, hia, hex, hcr, hcv]

theorem parse_failure_attempted_not_counted_witness :
    is_already_converted ⟨"broken", none⟩ = false ∧
    processFile {"M"} ["broken.csv"] ⟨2, 3, []⟩ ⟨"broken", none⟩ = ⟨2, 3, []⟩ := by
  have h := parse_failure_attempted_not_counted ⟨"broken", none⟩ {"M"} ["broken.csv"]
    ⟨2, 3, []⟩ (by decide) rfl (by decide) (by decide)
  exact ⟨h.1, h.2.2⟩

/-- C7 counterexample: with the input directory missing, `main()` reports
and returns without processing anything, but the process exits with status 0
(success) — `main()` ends in a plain `return` and the `__main__` guard never
calls `sys.exit` — refuting the claimed non-zero setup-failure status. -/
theorem missing_input_dir_exit_zero_cex :
    script_main ⟨false, [⟨"a", some ⟨["ID Subjektu"], [[some "1"]]⟩⟩], true, []⟩ =
      .noInputDir ∧
    script_exit_code ⟨false, [⟨"a", some ⟨["ID Subjektu"], [[some "1"]]⟩⟩], true, []⟩ = 0 := by
  decide

/-- C7 amended: if the input directory does not exist the run reports the
condition and terminates before processing any file — nothing is converted
and nothing is created — but the process exit status is 0 (success); the
code signals no non-zero status for this condition. -/
theorem missing_input_dir_stops_exit_zero (fs : FS) (h : fs.inputDirExists = false) :
    script_main fs = .noInputDir ∧ outcomeConverted (script_main fs) = 0 ∧
    outcomeCreated (script_main fs) = [] ∧ script_exit_code fs = 0 := by
  have hm : script_main fs = .noInputDir := by simp [script_main, h]
  exact ⟨hm, by rw [hm]; rfl, by rw [hm]; rfl, rfl⟩

theorem missing_input_dir_stops_exit_zero_witness :
    script_main ⟨false, [], false, []⟩ = .noInputDir ∧
    script_exit_code ⟨false, [], false, []⟩ = 0 := by
  have h := missing_input_dir_stops_exit_zero ⟨false, [], false, []⟩ rfl
  exact ⟨h.1, h.2.2.2⟩

/-- C8: the merge-pool builder yields the empty pool without error for a
missing merge directory or an empty file list; for a parseable merge file it
chooses `"ID"` first, then `"ID Subjektu"`, and contributes zero IDs with a
non-fatal warning when neither exists; and a file whose parse fails is
reported per-file while every other file still contributes to the pool. -/
theorem merge_pool_builder_tolerant (files : List DirFile) :
    get_merge_ids false files = (∅, []) ∧
    get_merge_ids true [] = (∅, []) ∧
    (∀ f df, f.contents = some df → "ID" ∈ df.columns →
      get_merge_ids true [f] =
        (extractIds df "ID", [.counted f.name (extractIds df "ID").card])) ∧
    (∀ f df, f.contents = some df → "ID" ∉ df.columns → "ID Subjektu" ∈ df.columns →
      get_merge_ids true [f] =
        (extractIds df "ID Subjektu",
         [.counted f.name (extractIds df "ID Subjektu").card])) ∧
    (∀ f df, f.contents = some df → "ID" ∉ df.columns → "ID Subjektu" ∉ df.columns →
      get_merge_ids true [f] = (∅, [.noIdColumn f.name])) ∧
    (∀ (l₁ l₂ : List DirFile) (bad : DirFile), bad.contents = none →
      (get_merge_ids true (l₁ ++ bad :: l₂)).1 = (get_merge_ids true (l₁ ++ l₂)).1 ∧
      MergeReport.readError bad.name ∈ (get_merge_ids true (l₁ ++ bad :: l₂)).2) := by
  have hpool : ∀ l : List DirFile,
      (get_merge_ids true l).1 = l.foldl (fun s f => s ∪ mergeContrib f) ∅ := by
    intro l; simp [get_merge_ids, foldl_mergeStep]
  have hrep : ∀ l : List DirFile, (get_merge_ids true l).2 = l.map mergeReportOf := by
    intro l; simp [get_merge_ids, foldl_mergeStep]
  refine ⟨rfl, rfl, ?_, ?_, ?_, ?_⟩
  · intro f df hdf h
    simp [get_merge_ids, mergeStep, hdf, h]
  · intro f df hdf h1 h2
    simp [get_merge_ids, mergeStep, hdf, h1, h2]
  · intro f df hdf h1 h2
    simp [get_merge_ids, mergeStep, hdf, h1, h2]
  · intro l₁ l₂ bad hbad
    have hcb : mergeContrib bad = ∅ := by simp [mergeContrib, hbad]
    have hrb : mergeReportOf bad = .readError bad.name := by simp [mergeReportOf, hbad]
    constructor
    · rw [hpool, hpool, List.foldl_append, List.foldl_append, List.foldl_cons, hcb,
        Finset.union_empty]
    · rw [hrep, List.map_append, List.map_cons, hrb]
      exact List.mem_append_right _ (List.mem_cons_self _ _)

theorem merge_pool_builder_tolerant_witness :
    get_merge_ids true [⟨"m", some ⟨["ID"], [[some "5"]]⟩⟩] =
      ({"5"}, [.counted "m.csv" 1]) := by
  have h := (merge_pool_builder_tolerant []).2.2.1 ⟨"m", some ⟨["ID"], [[some "5"]]⟩⟩
    ⟨["ID"], [[some "5"]]⟩ rfl (by decide)
  exact h.trans (by decide)

/-- On a parseable input without the identifier column, the converter fails
with the schema error carrying the path and the actual columns. -/
theorem convert_fail_of_no_col {p o : String} {df : Table}
    {mids : Option (Finset String)} (h : "ID Subjektu" ∉ df.columns) :
    convert_csv_with_merge p (some df) o mids = .fail (.schemaError p df.columns) := by
  show (if "ID Subjektu" ∈ df.columns then _ else _) = _
  rw [if_neg h]

/-- A successful conversion reports exactly the output path it was given. -/
theorem convert_ok_outputFile {p o q : String} {ct : Option Table}
    {mids : Option (Finset String)} {w : OutputCSV}
    (h : convert_csv_with_merge p ct o mids = .ok q w) : q = o := by
  cases ct with
  | none => exact absurd h (by simp [convert_csv_with_merge])
  | some df =>
    by_cases hc : "ID Subjektu" ∈ df.columns
    · rw [convert_ok_eq p o df mids hc] at h
      injection h with h1 h2
      exact h1.symm
    · rw [convert_fail_of_no_col hc] at h
      cases h

theorem outputAsDirFile_name (e : String × OutputCSV) :
    (outputAsDirFile e).name = e.1 ++ "_converted.csv" := by
  show (e.1 ++ "_converted") ++ ".csv" = e.1 ++ "_converted.csv"
  rw [String.append_assoc]
  congr 1

/-- Each driver iteration only appends to the created-files list. -/
theorem processFile_created_mono (m : Finset String) (ex : List String)
    (st : RunState) (f : DirFile) :
    ∃ tl, (processFile m ex st f).created = st.created ++ tl := by
  unfold processFile
  split
  · exact ⟨[], by simp⟩
  · split
    · exact ⟨[], by simp⟩
    · split
      · exact ⟨_, rfl⟩
      · exact ⟨[], by simp⟩

theorem foldl_created_mono (m : Finset String) (ex : List String)
    (l : List DirFile) (st : RunState) :
    ∃ tl, (l.foldl (processFile m ex) st).created = st.created ++ tl := by
  induction l generalizing st with
  | nil => exact ⟨[], by simp⟩
  | cons f l ih =>
    obtain ⟨t₂, h₂⟩ := ih (processFile m ex st f)
    obtain ⟨t₁, h₁⟩ := processFile_created_mono m ex st f
    exact ⟨t₁ ++ t₂, by rw [List.foldl_cons, h₂, h₁, List.append_assoc]⟩

theorem createdNames_mono (m : Finset String) (ex : List String)
    (l : List DirFile) (st : RunState) {x : String}
    (h : x ∈ createdNames st) : x ∈ createdNames (l.foldl (processFile m ex) st) := by
  obtain ⟨tl, htl⟩ := foldl_created_mono m ex l st
  unfold createdNames at h ⊢
  rw [htl, List.map_append]
  exact List.mem_append_left _ h

/-- If a run's loop meets a not-already-converted file that converts
successfully, then by the end of the loop a file exists at the default
output path: it either already existed (and the file was skipped) or the
loop created it. -/
theorem outFile_covered (m : Finset String) (ex : List String) (l : List DirFile)
    (st : RunState) (f : DirFile) (hf : f ∈ l)
    (hic : is_already_converted f = false) (w : OutputCSV)
    (hok : convert_csv_with_merge f.name f.contents f.outFile (some m) = .ok f.outFile w) :
    f.outFile ∈ ex ∨ f.outFile ∈ createdNames (l.foldl (processFile m ex) st) := by
  induction l generalizing st with
  | nil => cases hf
  | cons g l ih =>
    rw [List.foldl_cons]
    rcases List.mem_cons.mp hf with he | hm
    · subst he
      by_cases hg : f.outFile ∈ ex ∨ f.outFile ∈ createdNames st
      · rcases hg with hg | hg
        · exact Or.inl hg
        · right
          apply createdNames_mono
          have hcr : (processFile m ex st f).created = st.created := by
            simp [processFile, hic, Or.inr hg]
          unfold createdNames at hg ⊢
          rw [hcr]; exact hg
      · right
        apply createdNames_mono
        have hcr : (processFile m ex st f).created = st.created ++ [(f.stem, w)] := by
          simp [processFile, hic, hg, hok]
        unfold createdNames
        rw [hcr, List.map_append]
        apply List.mem_append_right
        simp [DirFile.outFile]
    · exact ih (processFile m ex st g) hm


/-- Branch equation: an already-converted file is skipped and counted. -/
theorem processFile_skip_already (m : Finset String) (ex : List String)
    (st : RunState) (f : DirFile) (h : is_already_converted f = true) :
    processFile m ex st f = { st with skipped := st.skipped + 1 } := by
  unfold processFile
  rw [if_pos h]

/-- Branch equation: a convertible file whose default output path already
exists is skipped and counted. -/
theorem processFile_skip_exists (m : Finset String) (ex : List String)
    (st : RunState) (f : DirFile) (h1 : is_already_converted f = false)
    (h2 : f.outFile ∈ ex ∨ f.outFile ∈ createdNames st) :
    processFile m ex st f = { st with skipped := st.skipped + 1 } := by
  unfold processFile
  rw [if_neg (by simp [h1]), if_pos h2]

/-- Branch equation: a convertible file with a fresh output path that
converts successfully is counted and its output recorded. -/
theorem processFile_convert_ok (m : Finset String) (ex : List String)
    (st : RunState) (f : DirFile) (w : OutputCSV)
    (h1 : is_already_converted f = false)
    (h2 : ¬(f.outFile ∈ ex ∨ f.outFile ∈ createdNames st))
    (h3 : convert_csv_with_merge f.name f.contents f.outFile (some m) = .ok f.outFile w) :
    processFile m ex st f =
      { st with converted := st.converted + 1, created := st.created ++ [(f.stem, w)] } := by
  unfold processFile
  rw [if_neg (by simp [h1]), if_neg h2, h3]

/-- Branch equation: a convertible file with a fresh output path whose
conversion fails leaves the state unchanged. -/
theorem processFile_convert_fail (m : Finset String) (ex : List String)
    (st : RunState) (f : DirFile) (r : ErrorReport)
    (h1 : is_already_converted f = false)
    (h2 : ¬(f.outFile ∈ ex ∨ f.outFile ∈ createdNames st))
    (h3 : convert_csv_with_merge f.name f.contents f.outFile (some m) = .fail r) :
    processFile m ex st f = st := by
  unfold processFile
  rw [if_neg (by simp [h1]), if_neg h2, h3]

/-- In a rerun over an unchanged directory extended with the previous run's
outputs, no iteration converts or creates anything: prior outputs are
recognised by their `"_converted"` stem, and any file the first run could
convert now finds a file at its default output path. -/
theorem second_run_step (m : Finset String) (dir : List DirFile) (f : DirFile)
    (hf : f ∈ dir ++ (runBatch m dir).created.map outputAsDirFile) (st : RunState) :
    (processFile m ((dir ++ (runBatch m dir).created.map outputAsDirFile).map DirFile.name)
        st f).converted = st.converted ∧
    (processFile m ((dir ++ (runBatch m dir).created.map outputAsDirFile).map DirFile.name)
        st f).created = st.created := by
  rcases List.mem_append.mp hf with hfd | hfc
  · by_cases hic : is_already_converted f
    · rw [processFile_skip_already m _ st f hic]
      exact ⟨rfl, rfl⟩
    · rw [Bool.not_eq_true] at hic
      by_cases hg : f.outFile ∈
          ((dir ++ (runBatch m dir).created.map outputAsDirFile).map DirFile.name) ∨
          f.outFile ∈ createdNames st
      · rw [processFile_skip_exists m _ st f hic hg]
        exact ⟨rfl, rfl⟩
      · cases hcv : convert_csv_with_merge f.name f.contents f.outFile (some m) with
        | fail r =>
          rw [processFile_convert_fail m _ st f r hic hg hcv]
          exact ⟨rfl, rfl⟩
        | ok q w =>
          exfalso
          have hq : q = f.outFile := convert_ok_outputFile hcv
          subst hq
          have hcov := outFile_covered m (dir.map DirFile.name) dir ⟨0, 0, []⟩ f hfd hic w hcv
          apply hg
          left
          rw [List.map_append]
          rcases hcov with hcov | hcov
          · exact List.mem_append_left _ hcov
          · apply List.mem_append_right
            unfold createdNames at hcov
            rw [List.mem_map] at hcov ⊢
            obtain ⟨e, he, hname⟩ := hcov
            exact ⟨outputAsDirFile e, List.mem_map_of_mem _ he,
              (outputAsDirFile_name e).trans hname⟩
  · obtain ⟨e, he, rfl⟩ := List.mem_map.mp hfc
    have hic : is_already_converted (outputAsDirFile e) = true := by
      simp [is_already_converted, outputAsDirFile, endswith_append]
    rw [processFile_skip_already m _ st _ hic]
    exact ⟨rfl, rfl⟩

/-- Folding a rerun's loop over files drawn from the extended directory
leaves the converted counter and the created list untouched. -/
theorem second_run_foldl (m : Finset String) (dir : List DirFile) (l : List DirFile)
    (hl : ∀ f ∈ l, f ∈ dir ++ (runBatch m dir).created.map outputAsDirFile)
    (st : RunState) :
    (l.foldl (processFile m
        ((dir ++ (runBatch m dir).created.map outputAsDirFile).map DirFile.name)) st).converted
      = st.converted ∧
    (l.foldl (processFile m
        ((dir ++ (runBatch m dir).created.map outputAsDirFile).map DirFile.name)) st).created
      = st.created := by
  induction l generalizing st with
  | nil => exact ⟨rfl, rfl⟩
  | cons f l ih =>
    rw [List.foldl_cons]
    have hstep := second_run_step m dir f (hl f (List.mem_cons_self f l)) st
    have hrest := ih (fun g hg => hl g (List.mem_cons_of_mem f hg))
      (processFile m
        ((dir ++ (runBatch m dir).created.map outputAsDirFile).map DirFile.name) st f)
    exact ⟨hrest.1.trans hstep.1, hrest.2.trans hstep.2⟩

/-- The pool-threaded driver computes the same run state and returns the
pool it started with. -/
theorem runBatchTracked_eq (m : Finset String) (dir : List DirFile) :
    runBatchTracked m dir = (runBatch m dir, m) := by
  unfold runBatchTracked runBatch
  generalize dir.map DirFile.name = ex
  generalize (⟨0, 0, []⟩ : RunState) = st₀
  induction dir generalizing st₀ with
  | nil => rfl
  | cons f l ih => rw [List.foldl_cons, List.foldl_cons, ih]

/-- One driver iteration preserves the created-files invariant: no created
file's name collides with a pre-existing directory entry or another created
file. -/
theorem processFile_invariant (m : Finset String) (ex : List String)
    (st : RunState) (f : DirFile)
    (h1 : ∀ e ∈ st.created, e.1 ++ "_converted.csv" ∉ ex)
    (h2 : (createdNames st).Nodup) :
    (∀ e ∈ (processFile m ex st f).created, e.1 ++ "_converted.csv" ∉ ex) ∧
    (createdNames (processFile m ex st f)).Nodup := by
  by_cases hic : is_already_converted f
  · rw [processFile_skip_already m ex st f hic]
    exact ⟨h1, h2⟩
  · rw [Bool.not_eq_true] at hic
    by_cases hg : f.outFile ∈ ex ∨ f.outFile ∈ createdNames st
    · rw [processFile_skip_exists m ex st f hic hg]
      exact ⟨h1, h2⟩
    · cases hcv : convert_csv_with_merge f.name f.contents f.outFile (some m) with
      | fail r =>
        rw [processFile_convert_fail m ex st f r hic hg hcv]
        exact ⟨h1, h2⟩
      | ok q w =>
        have hq : q = f.outFile := convert_ok_outputFile hcv
        subst hq
        rw [processFile_convert_ok m ex st f w hic hg hcv]
        push_neg at hg
        constructor
        · intro e he
          rcases List.mem_append.mp he with he | he
          · exact h1 e he
          · rcases List.mem_singleton.mp he with rfl
            exact hg.1
        · show (List.map _ (st.created ++ [(f.stem, w)])).Nodup
          rw [List.map_append, List.nodup_append]
          refine ⟨h2, List.nodup_singleton _, ?_⟩
          intro x hx hx'
          rcases List.mem_singleton.mp hx' with rfl
          exact hg.2 hx

/-- A whole run preserves the created-files invariant from the empty
starting state. -/
theorem foldl_invariant (m : Finset String) (ex : List String)
    (l : List DirFile) (st : RunState)
    (h1 : ∀ e ∈ st.created, e.1 ++ "_converted.csv" ∉ ex)
    (h2 : (createdNames st).Nodup) :
    (∀ e ∈ (l.foldl (processFile m ex) st).created, e.1 ++ "_converted.csv" ∉ ex) ∧
    (createdNames (l.foldl (processFile m ex) st)).Nodup := by
  induction l generalizing st with
  | nil => exact ⟨h1, h2⟩
  | cons f l ih =>
    rw [List.foldl_cons]
    obtain ⟨g1, g2⟩ := processFile_invariant m ex st f h1 h2
    exact ih _ g1 g2

/-- C4: the driver is idempotent.  The per-file guard: a convertible file
whose default output path already exists is skipped, counted, and converts
nothing.  Consequently a second batch run over the same directory extended
by the first run's outputs converts 0 files and creates nothing, leaving
every file of the directory exactly as it was. -/
theorem batch_idempotent (m : Finset String) (dir : List DirFile) :
    (∀ (ex : List String) (st : RunState) (f : DirFile),
      is_already_converted f = false → f.outFile ∈ ex →
      processFile m ex st f = { st with skipped := st.skipped + 1 }) ∧
    (runBatch m (dir ++ (runBatch m dir).created.map outputAsDirFile)).converted = 0 ∧
    (runBatch m (dir ++ (runBatch m dir).created.map outputAsDirFile)).created = [] ∧
    (dir ++ (runBatch m dir).created.map outputAsDirFile) ++
        (runBatch m (dir ++ (runBatch m dir).created.map outputAsDirFile)).created.map
          outputAsDirFile
      = dir ++ (runBatch m dir).created.map outputAsDirFile := by
  have h2 := second_run_foldl m dir (dir ++ (runBatch m dir).created.map outputAsDirFile)
    (fun f hf => hf) ⟨0, 0, []⟩
  have hconv : (runBatch m (dir ++ (runBatch m dir).created.map outputAsDirFile)).converted
      = 0 := h2.1
  have hcr : (runBatch m (dir ++ (runBatch m dir).created.map outputAsDirFile)).created
      = [] := h2.2
  refine ⟨?_, hconv, hcr, ?_⟩
  · intro ex st f h1 hex
    exact processFile_skip_exists m ex st f h1 (Or.inl hex)
  · rw [hcr]
    simp

theorem batch_idempotent_witness :
    processFile {"M"} ["a_converted.csv"] ⟨0, 0, []⟩
        ⟨"a", some ⟨["ID Subjektu"], [[some "x"]]⟩⟩ = ⟨0, 1, []⟩ ∧
    (runBatch {"M"} ([⟨"a", some ⟨["ID Subjektu"], [[some "x"]]⟩⟩] ++
        (runBatch {"M"} [⟨"a", some ⟨["ID Subjektu"], [[some "x"]]⟩⟩]).created.map
          outputAsDirFile)).converted = 0 := by
  constructor
  · have h := (batch_idempotent {"M"} []).1 ["a_converted.csv"] ⟨0, 0, []⟩
      ⟨"a", some ⟨["ID Subjektu"], [[some "x"]]⟩⟩ (by decide) (by decide)
    exact h.trans (by decide)
  · exact (batch_idempotent {"M"} [⟨"a", some ⟨["ID Subjektu"], [[some "x"]]⟩⟩]).2.1

/-- C9: a batch run never touches an existing file — every file it creates
carries the `"_converted"` stem suffix, collides with no name present in
the directory at the start of the run, and collides with no other created
file — and the merge pool handed to each converter invocation comes back
unchanged: the tracked run returns the initial pool. -/
theorem batch_creates_only_new_files (m : Finset String) (dir : List DirFile) :
    (∀ e ∈ (runBatch m dir).created,
      endswith (e.1 ++ "_converted") "_converted" = true ∧
      e.1 ++ "_converted.csv" ∉ dir.map DirFile.name) ∧
    (createdNames (runBatch m dir)).Nodup ∧
    runBatchTracked m dir = (runBatch m dir, m) := by
  have hinv := foldl_invariant m (dir.map DirFile.name) dir ⟨0, 0, []⟩
    (by intro e he; cases he) List.nodup_nil
  exact ⟨fun e he => ⟨endswith_append e.1 "_converted", hinv.1 e he⟩, hinv.2,
    runBatchTracked_eq m dir⟩

theorem batch_creates_only_new_files_witness :
    ("b", (⟨["ID"], ["M", "y"]⟩ : OutputCSV)).1 ++ "_converted.csv" ∉
      [(⟨"b", some ⟨["ID Subjektu"], [[some "y"]]⟩⟩ : DirFile)].map DirFile.name := by
  have h := (batch_creates_only_new_files {"M"}
      [⟨"b", some ⟨["ID Subjektu"], [[some "y"]]⟩⟩]).1
    ("b", ⟨["ID"], ["M", "y"]⟩) (by decide)
  exact h.2
